import Mathlib

/-!
# falcoctl: the `artifact search` and `artifact info` commands

A shallow embedding of `cmd/artifact/search/artifact_search.go` and
`cmd/artifact/info/info.go`.  The collaborators the two commands call but whose
code lives elsewhere (the merged index, the printer, the OCI registry client,
the reference grammar) are parameters of the embedding; every call that is
visible from outside (a keyword search, a warning, a tag listing, a printed
table) is recorded in a log, so that "is called with", "is never called" and
"prints no table" are statements about that log.
-/

set_option linter.dupNamespace false

namespace Falcoctl

/-! ## Go values -/

/-- Go `error` values, as far as the commands inspect them: the sentinel
`context.Canceled`, an error carrying only a message (`fmt.Errorf` without `%w`,
`errors.New`), and an error wrapping another one (`fmt.Errorf` with `%w`). -/
inductive GoError where
  | contextCanceled
  | errorf (msg : String)
  | wrap (msg : String) (inner : GoError)
  deriving DecidableEq, Repr

/-- The test `errors.Is(err, context.Canceled)`: the sentinel is looked for along the
chain of wrapped errors. -/
def GoError.isCanceled : GoError → Bool
  | .contextCanceled => true
  | .errorf _ => false
  | .wrap _ inner => inner.isCanceled

/-- The text of `err.Error()`, which is what the verb `%v` prints. -/
def GoError.Error : GoError → String
  | .contextCanceled => "context canceled"
  | .errorf msg => msg
  | .wrap msg _ => msg

/-- The values of a Go `float64` as its comparison operators see them: not-a-number,
the two infinities, and the finite values (both zeros are `finite 0`).  Every
finite `float64` is a rational number; the model lets `finite` range over all
of them. -/
inductive Float64 where
  | nan
  | negInf
  | posInf
  | finite (q : ℚ)
  deriving DecidableEq

/-- Go's `a <= b` on `float64`: false as soon as one side is not a number. -/
def Float64.le : Float64 → Float64 → Bool
  | .nan, _ => false
  | _, .nan => false
  | .negInf, _ => true
  | _, .posInf => true
  | .posInf, _ => false
  | .finite _, .negInf => false
  | .finite a, .finite b => decide (a ≤ b)

/-- Go's `a > b` on `float64`: false as soon as one side is not a number. -/
def Float64.gt : Float64 → Float64 → Bool
  | .nan, _ => false
  | _, .nan => false
  | .posInf, .posInf => false
  | .posInf, _ => true
  | .negInf, _ => false
  | .finite _, .posInf => false
  | .finite _, .negInf => true
  | .finite a, .finite b => decide (b < a)

/-- Membership in the half-open interval `(0,1]`: a number `q` with `0 < q ≤ 1`. -/
def Float64.inUnitInterval : Float64 → Prop
  | .finite q => 0 < q ∧ q ≤ 1
  | _ => False

instance (x : Float64) : Decidable x.inUnitInterval := by
  cases x <;> unfold Float64.inUnitInterval <;> infer_instance

/-! ## The data the commands read -/

/-- The fields of an index `Entry` that the commands read. -/
structure Entry where
  Name : String
  Type_ : String
  Registry : String
  Repository : String
  deriving DecidableEq

/-- The one field of an `Index` that the commands read. -/
structure Index where
  Name : String
  deriving DecidableEq

/-- The table layouts of package `output` the two commands print with. -/
inductive TableKind where
  | ArtifactSearch
  | ArtifactInfo
  deriving DecidableEq

/-- What a run does that is visible from outside, in the order it happens. -/
inductive Event where
  | searchByKeywords (minScore : Float64) (keywords : List String)
  | warning (format : String) (args : List String)
  | tags (ref : String)
  | printTable (kind : TableKind) (data : List (List String))
  deriving DecidableEq

/-- The methods of `IndexCache.MergedIndexes` the commands call. -/
structure MergedIndexes where
  SearchByKeywords : Float64 → List String → List Entry
  IndexByEntry : Entry → Index
  EntryByName : String → Option Entry

/-- The part of `options.Common` the commands use: the merged index of the cache and
the result of the printer's `PrintTable` (`none` is Go's `nil` error). -/
structure Common where
  MergedIndexes : MergedIndexes
  PrintTable : TableKind → List (List String) → Option GoError

/-! ## `artifact search` -/

/-- The struct `artifactSearchOptions`; `oci.ArtifactType` is a string type. -/
structure artifactSearchOptions where
  Common : Common
  minScore : Float64
  artifactType : String

/-- The method `Validate` of `artifactSearchOptions`. -/
def artifactSearchOptions.Validate (o : artifactSearchOptions) : Option GoError :=
  if o.minScore.le (.finite 0) || o.minScore.gt (.finite 1) then
    some (.errorf "minScore must be a number within (0,1]")
  else
    none

/-- The body of the `for _, entry := range resultEntries` loop of `RunArtifactSearch`,
with `data` the rows appended so far. -/
def searchRows (o : artifactSearchOptions) :
    List (List String) → List Entry → List (List String)
  | data, [] => data
  | data, entry :: rest =>
    if o.artifactType ≠ "" ∧ o.artifactType ≠ entry.Type_ then
      searchRows o data rest
    else
      let indexName := (o.Common.MergedIndexes.IndexByEntry entry).Name
      let row := [indexName, entry.Name, entry.Type_, entry.Registry, entry.Repository]
      searchRows o (data ++ [row]) rest

/-- The outcome of running a command: what it did and the error it returned. -/
structure Run where
  log : List Event
  result : Option GoError
  deriving DecidableEq

/-- The method `RunArtifactSearch`. -/
def artifactSearchOptions.RunArtifactSearch (o : artifactSearchOptions)
    (args : List String) : Run :=
  let resultEntries := o.Common.MergedIndexes.SearchByKeywords o.minScore args
  let data := searchRows o [] resultEntries
  { log := [.searchByKeywords o.minScore args, .printTable .ArtifactSearch data]
    result := o.Common.PrintTable .ArtifactSearch data }

/-- The validator `cobra.MinimumNArgs(n)`. -/
def MinimumNArgs (n : Nat) (args : List String) : Option GoError :=
  if args.length < n then
    some (.errorf ("requires at least " ++ toString n ++ " arg(s), only received "
      ++ toString args.length))
  else
    none

/-- The fields of a `cobra.Command` that `NewArtifactSearchCmd` sets and that decide
what a run does. -/
structure Command where
  Args : List String → Option GoError
  PreRunE : List String → Option GoError
  RunE : List String → Run

/-- The command built by `NewArtifactSearchCmd`, with the flags `--min-score` and
`--type` already parsed into `o`. -/
def NewArtifactSearchCmd (o : artifactSearchOptions) : Command :=
  { Args := MinimumNArgs 1
    PreRunE := fun _ => o.Validate
    RunE := fun args => o.RunArtifactSearch args }

/-- How cobra runs a command on its positional arguments: the `Args` validator first,
then the persistent pre-run hooks inherited from the parent commands (their
outcome is the parameter `inherited`), then `PreRunE`, then `RunE`; the first
error ends the run. -/
def Command.execute (cmd : Command) (inherited : Option GoError)
    (args : List String) : Run :=
  match cmd.Args args with
  | some err => { log := [], result := some err }
  | none =>
    match inherited with
    | some err => { log := [], result := some err }
    | none =>
      match cmd.PreRunE args with
      | some err => { log := [], result := some err }
      | none => cmd.RunE args

/-- The `minScore` arguments of the calls to `SearchByKeywords` in a log. -/
def searchScores : List Event → List Float64
  | [] => []
  | .searchByKeywords s _ :: rest => s :: searchScores rest
  | _ :: rest => searchScores rest

/-- The calls to `SearchByKeywords` in a log, each with its two arguments. -/
def searchCalls : List Event → List (Float64 × List String)
  | [] => []
  | .searchByKeywords s kw :: rest => (s, kw) :: searchCalls rest
  | _ :: rest => searchCalls rest

/-- The tables handed to the printer in a log. -/
def printedTables : List Event → List (List (List String))
  | [] => []
  | .printTable _ data :: rest => data :: printedTables rest
  | _ :: rest => printedTables rest

/-- The row `RunArtifactSearch` builds for an entry: the name of the index that
`IndexByEntry` reports, then the entry's own four fields. -/
def entryRow (m : MergedIndexes) (e : Entry) : List String :=
  [(m.IndexByEntry e).Name, e.Name, e.Type_, e.Registry, e.Repository]

/-- The test a search result passes in `RunArtifactSearch` under the type filter `t`:
the negation of the condition of the `continue`. -/
def keptBy (t : String) (e : Entry) : Bool :=
  !(decide (t ≠ "") && decide (t ≠ e.Type_))

/-! ## `artifact info` -/

/-- The struct `registry.Reference` of oras-go. -/
structure Reference where
  Registry : String
  Repository : String
  Reference : String
  deriving DecidableEq

/-- The registry side of `artifact info`: `ociutils.Client()`, `registry.ParseReference`,
the method `String` of a reference, `repository.NewRepository` (reference, client,
plain-HTTP option) and the method `Tags` of a repository.  Listing tags goes to the
network under the command's context, so its answer may change from one call to the
next: it reads and updates a state of the outside world. -/
structure Oci (W C R : Type) where
  Client : Except GoError C
  ParseReference : String → Except GoError Reference
  ReferenceString : Reference → String
  NewRepository : String → C → Bool → Except GoError R
  Tags : W → R → Except GoError (List String) × W

/-- The struct `artifactInfoOptions`: the common options and, of the registry options,
the `PlainHTTP` switch. -/
structure artifactInfoOptions where
  Common : Common
  PlainHTTP : Bool

/-- The variables the loop of `RunArtifactInfo` carries from one name to the next: the
outside world, what was done so far, and the rows collected in `data`. -/
structure LoopState (World : Type) where
  world : World
  log : List Event
  data : List (List String)

/-- How one pass through the loop body ends: it goes on to the next name (`continue`,
or the end of the body), or the function returns an error. -/
inductive Step (World : Type) where
  | next (s : LoopState World)
  | exit (s : LoopState World) (err : GoError)

/-- The first part of the loop body of `RunArtifactInfo`: the reference for a name,
or `none` when the name neither parses as a reference nor is in the index. -/
def resolveRef {World Client Repo : Type} (oci : Oci World Client Repo)
    (o : artifactInfoOptions) (name : String) : Option String :=
  match oci.ParseReference name with
  | .error _ =>
    match o.Common.MergedIndexes.EntryByName name with
    | none => none
    | some entry => some (entry.Registry ++ "/" ++ entry.Repository)
  | .ok parsedRef => some (oci.ReferenceString { parsedRef with Reference := "" })

/-- The warning printed for a name that cannot be resolved. -/
def cannotFind (name : String) : Event :=
  .warning "cannot find %q, skipping" [name]

/-- The warning printed when the tags of a reference cannot be listed. -/
def cannotRetrieveTags (ref : String) (err : GoError) : Event :=
  .warning "cannot retrieve tags from t %q, %v" [ref, err.Error]

/-- The loop body of `RunArtifactInfo` for one name. -/
def processName {World Client Repo : Type} (oci : Oci World Client Repo)
    (o : artifactInfoOptions) (client : Client) (s : LoopState World)
    (name : String) : Step World :=
  match resolveRef oci o name with
  | none => .next { s with log := s.log ++ [cannotFind name] }
  | some ref =>
    match oci.NewRepository ref client o.PlainHTTP with
    | .error err => .exit s err
    | .ok repo =>
      match oci.Tags s.world repo with
      | (.error err, w) =>
        if !err.isCanceled then
          .next { world := w, log := s.log ++ [.tags ref, cannotRetrieveTags ref err],
                  data := s.data }
        else
          .exit { world := w, log := s.log ++ [.tags ref], data := s.data } err
      | (.ok tags, w) =>
        let joinedTags := ", ".intercalate tags
        .next { world := w, log := s.log ++ [.tags ref],
                data := s.data ++ [[ref, joinedTags]] }

/-- The loop `for _, name := range args` of `RunArtifactInfo`: the state it ends in,
and the error it returned with, if it did. -/
def namesLoop {World Client Repo : Type} (oci : Oci World Client Repo)
    (o : artifactInfoOptions) (client : Client) :
    LoopState World → List String → LoopState World × Option GoError
  | s, [] => (s, none)
  | s, name :: rest =>
    match processName oci o client s name with
    | .next s1 => namesLoop oci o client s1 rest
    | .exit s1 err => (s1, some err)

/-- The end of `RunArtifactInfo`: the error the loop returned with, or else the table,
printed only if there is data. -/
def afterLoop {World : Type} (o : artifactInfoOptions) :
    LoopState World × Option GoError → Run
  | (s, some err) => { log := s.log, result := some err }
  | (s, none) =>
    if s.data.length > 0 then
      { log := s.log ++ [.printTable .ArtifactInfo s.data]
        result := o.Common.PrintTable .ArtifactInfo s.data }
    else
      { log := s.log, result := none }

/-- The state in which `RunArtifactInfo` enters its loop, in the world `w`. -/
def LoopState.init {World : Type} (w : World) : LoopState World :=
  { world := w, log := [], data := [] }

/-- The method `RunArtifactInfo`, started in the world `w`. -/
def artifactInfoOptions.RunArtifactInfo {World Client Repo : Type}
    (o : artifactInfoOptions) (oci : Oci World Client Repo) (w : World)
    (args : List String) : Run :=
  match oci.Client with
  | .error err => { log := [], result := some err }
  | .ok client => afterLoop o (namesLoop oci o client (LoopState.init w) args)

/-- The state a pass through the loop body ends in. -/
def Step.state {World : Type} : Step World → LoopState World
  | .next s => s
  | .exit s _ => s

/-- A state with `l` put in front of its log. -/
def LoopState.prependLog {World : Type} (l : List Event) (s : LoopState World) :
    LoopState World :=
  { s with log := l ++ s.log }

/-- A step with `l` put in front of the log of its state. -/
def Step.prependLog {World : Type} (l : List Event) : Step World → Step World
  | .next s => .next (s.prependLog l)
  | .exit s err => .exit (s.prependLog l) err

/-- The rows the claim on `RunArtifactInfo` describes, built front to back: going through
the arguments in order from the world `w`, one row of the reference and its tags
joined with ", " for each argument whose tag listing succeeded, none for an
argument that is skipped, and nothing after the argument the run ends at. -/
def expectedRows {World Client Repo : Type} (oci : Oci World Client Repo)
    (o : artifactInfoOptions) (client : Client) : World → List String → List (List String)
  | _, [] => []
  | w, name :: rest =>
    match resolveRef oci o name with
    | none => expectedRows oci o client w rest
    | some ref =>
      match oci.NewRepository ref client o.PlainHTTP with
      | .error _ => []
      | .ok repo =>
        match oci.Tags w repo with
        | (.ok tags, w1) => [ref, ", ".intercalate tags] :: expectedRows oci o client w1 rest
        | (.error err, w1) =>
          if err.isCanceled then [] else expectedRows oci o client w1 rest

/-- The references whose tags were listed in a log. -/
def tagsCalls : List Event → List String
  | [] => []
  | .tags ref :: rest => ref :: tagsCalls rest
  | _ :: rest => tagsCalls rest

/-! ## Concrete inputs -/

/-- The two entries of the scenario with the indexes "core" and "extra". -/
def cloudtrail : Entry :=
  { Name := "cloudtrail", Type_ := "plugin", Registry := "r.io", Repository := "falco/cloudtrail" }

/-- The entry of the index "extra". -/
def cloudtrailExt : Entry :=
  { Name := "cloudtrail-ext", Type_ := "plugin", Registry := "r2.io",
    Repository := "x/cloudtrail-ext" }

/-- A rules file entry of the index "core". -/
def falcoRules : Entry :=
  { Name := "falco-rules", Type_ := "rulesfile", Registry := "r.io",
    Repository := "falco/falco-rules" }

/-- An entry whose registry is not a host name, so that no repository can be built
for it. -/
def broken : Entry :=
  { Name := "broken", Type_ := "plugin", Registry := "r io", Repository := "x" }

/-- A merged index over "core" and "extra": every search returns the three entries of
the scenario, and a name is found when it is the name of an entry. -/
def sampleIndexes : MergedIndexes :=
  { SearchByKeywords := fun _ _ => [cloudtrail, falcoRules, cloudtrailExt]
    IndexByEntry := fun e => if e = cloudtrailExt then ⟨"extra"⟩ else ⟨"core"⟩
    EntryByName := fun name =>
      if name = "cloudtrail" then some cloudtrail
      else if name = "cloudtrail-ext" then some cloudtrailExt
      else if name = "falco-rules" then some falcoRules
      else if name = "broken" then some broken
      else none }

/-- Common options over the sample index, with a printer that never fails. -/
def sampleCommon : Common :=
  { MergedIndexes := sampleIndexes, PrintTable := fun _ _ => none }

/-- Search options with the default threshold `0.65` and no type filter. -/
def defaultSearch : artifactSearchOptions :=
  { Common := sampleCommon, minScore := .finite (65 / 100), artifactType := "" }

/-- Search options after `--min-score NaN`. -/
def nanSearch : artifactSearchOptions :=
  { Common := sampleCommon, minScore := .nan, artifactType := "" }

/-- Search options after `--min-score 2`. -/
def tooHighSearch : artifactSearchOptions :=
  { Common := sampleCommon, minScore := .finite 2, artifactType := "" }

/-- Search options after `--type plugin`. -/
def pluginSearch : artifactSearchOptions :=
  { Common := sampleCommon, minScore := .finite (65 / 100), artifactType := "plugin" }

/-- Options of `artifact info` over the sample index. -/
def sampleInfo : artifactInfoOptions :=
  { Common := sampleCommon, PlainHTTP := false }

/-- A registry side whose world counts the tag listings made so far.  No bare name
parses as a reference; a repository is built for every reference but the one of
`broken`; listing tags is refused for `cloudtrail-ext` and answers two tags for
every other repository; and from the listing numbered `cancelAt` on, the context
is canceled. -/
def sampleOci (cancelAt : Nat) : Oci Nat Unit String :=
  { Client := .ok ()
    ParseReference := fun name =>
      if name = "r.io/falco/cloudtrail:0.1.0" then .ok ⟨"r.io", "falco/cloudtrail", "0.1.0"⟩
      else .error (.errorf "invalid reference: missing registry or repository")
    ReferenceString := fun r =>
      if r.Repository = "" then r.Registry
      else if r.Reference = "" then r.Registry ++ "/" ++ r.Repository
      else r.Registry ++ "/" ++ r.Repository ++ ":" ++ r.Reference
    NewRepository := fun ref _ _ =>
      if ref = "r io/x" then
        .error (.wrap "unable to create repository" (.errorf "invalid reference: invalid registry"))
      else .ok ref
    Tags := fun n repo =>
      if cancelAt ≤ n then
        (.error (.wrap "Get: context canceled" .contextCanceled), n + 1)
      else if repo = "r2.io/x/cloudtrail-ext" then
        (.error (.errorf "unauthorized"), n + 1)
      else (.ok ["0.1.0", "latest"], n + 1) }

/-! ## Theorems: `artifact search` -/

theorem searchRows_eq (o : artifactSearchOptions) (data : List (List String))
    (es : List Entry) :
    searchRows o data es
      = data ++ (es.filter (keptBy o.artifactType)).map (entryRow o.Common.MergedIndexes) := by
  induction es generalizing data with
  | nil => simp [searchRows]
  | cons e rest ih =>
    by_cases h : o.artifactType ≠ "" ∧ o.artifactType ≠ e.Type_
    · have hk : keptBy o.artifactType e = false := by
        simp [keptBy, h.1, h.2]
      simp [searchRows, h, ih, List.filter_cons, hk]
    · have hk : keptBy o.artifactType e = true := by
        simp only [keptBy, Bool.not_eq_true', Bool.and_eq_false_iff, decide_eq_false_iff_not]
        by_cases h1 : o.artifactType ≠ ""
        · exact Or.inr (fun h2 => h ⟨h1, h2⟩)
        · exact Or.inl h1
      simp [searchRows, h, ih, List.filter_cons, hk, entryRow]

theorem keptBy_empty (e : Entry) : keptBy "" e = true := by
  simp [keptBy]

theorem keptBy_of_ne_empty (t : String) (ht : t ≠ "") (e : Entry) :
    keptBy t e = decide (e.Type_ = t) := by
  by_cases h : e.Type_ = t
  · simp [keptBy, h]
  · have h2 : t ≠ e.Type_ := fun h3 => h h3.symm
    simp [keptBy, ht, h, h2]

/-- `Validate` lets a threshold through exactly when it is in `(0,1]` or not a number. -/
theorem Validate_eq_none_iff (o : artifactSearchOptions) :
    o.Validate = none ↔ o.minScore.inUnitInterval ∨ o.minScore = .nan := by
  unfold artifactSearchOptions.Validate
  cases h : o.minScore with
  | nan => simp [Float64.le, Float64.gt]
  | negInf => simp [Float64.le, Float64.gt, Float64.inUnitInterval]
  | posInf => simp [Float64.le, Float64.gt, Float64.inUnitInterval]
  | finite q => simp [Float64.le, Float64.gt, Float64.inUnitInterval]

/-- The only error `Validate` returns. -/
theorem Validate_error (o : artifactSearchOptions) (err : GoError)
    (h : o.Validate = some err) :
    err = .errorf "minScore must be a number within (0,1]" := by
  unfold artifactSearchOptions.Validate at h
  split at h
  · exact (Option.some.inj h).symm
  · exact absurd h (by simp)

/-- For a threshold that is a number, `Validate` returns its error exactly outside
`(0,1]`. -/
theorem Validate_number (o : artifactSearchOptions) (h : o.minScore ≠ .nan) :
    (o.minScore.inUnitInterval → o.Validate = none) ∧
    (¬ o.minScore.inUnitInterval →
      o.Validate = some (.errorf "minScore must be a number within (0,1]")) := by
  constructor
  · intro hin
    exact (Validate_eq_none_iff o).2 (Or.inl hin)
  · intro hout
    cases hv : o.Validate with
    | none =>
      rcases (Validate_eq_none_iff o).1 hv with h1 | h1
      · exact absurd h1 hout
      · exact absurd h1 h
    | some err => rw [Validate_error o err hv]

/-- The command calls `SearchByKeywords` only with its own threshold, and only when
`Validate` let it through: the threshold is then in `(0,1]` or not a number. -/
theorem search_only_after_Validate (o : artifactSearchOptions) (inherited : Option GoError)
    (args : List String) (x : Float64)
    (hx : x ∈ searchScores ((NewArtifactSearchCmd o).execute inherited args).log) :
    x = o.minScore ∧ (o.minScore.inUnitInterval ∨ o.minScore = .nan) := by
  unfold Command.execute at hx
  simp only [NewArtifactSearchCmd] at hx
  cases hargs : MinimumNArgs 1 args with
  | some err => simp [hargs, searchScores] at hx
  | none =>
    cases inherited with
    | some err => simp [hargs, searchScores] at hx
    | none =>
      cases hv : o.Validate with
      | some err => simp [hargs, hv, searchScores] at hx
      | none =>
        simp [hargs, hv, artifactSearchOptions.RunArtifactSearch, searchScores] at hx
        exact ⟨hx, (Validate_eq_none_iff o).1 hv⟩

/-- Claim C1 at its failing input: after `--min-score NaN` the threshold is not in
`(0,1]`, yet `Validate` returns no error and the command calls `SearchByKeywords`
with that threshold. -/
theorem Validate_accepts_nan :
    ¬ Float64.nan.inUnitInterval ∧
    nanSearch.Validate = none ∧
    searchScores ((NewArtifactSearchCmd nanSearch).execute none ["cloudtrail"]).log
      = [Float64.nan] := by
  refine ⟨?_, ?_, ?_⟩
  · simp [Float64.inUnitInterval]
  · simp [artifactSearchOptions.Validate, nanSearch, Float64.le, Float64.gt]
  · simp [Command.execute, NewArtifactSearchCmd, MinimumNArgs,
      artifactSearchOptions.Validate, nanSearch, Float64.le, Float64.gt,
      artifactSearchOptions.RunArtifactSearch, searchScores]

theorem printedTables_RunArtifactSearch (o : artifactSearchOptions) (args : List String) :
    printedTables (o.RunArtifactSearch args).log
      = [((o.Common.MergedIndexes.SearchByKeywords o.minScore args).filter
          (keptBy o.artifactType)).map (entryRow o.Common.MergedIndexes)] := by
  simp [artifactSearchOptions.RunArtifactSearch, printedTables, searchRows_eq]

theorem searchCalls_RunArtifactSearch (o : artifactSearchOptions) (args : List String) :
    searchCalls (o.RunArtifactSearch args).log = [(o.minScore, args)] := by
  simp [artifactSearchOptions.RunArtifactSearch, searchCalls]

/-- Claim C2: with a non-empty type filter `t`, the table printed holds the rows of the
search results whose `Type` is `t`, in the order of the results; it is the table
printed without a filter restricted to the rows whose type column is `t`, hence a
subsequence of it; and `SearchByKeywords` is called once, with the threshold and the
keywords, whatever the filter. -/
theorem type_filter_is_post_search (o : artifactSearchOptions) (args : List String)
    (t : String) (ht : t ≠ "") :
    printedTables (({ o with artifactType := t }).RunArtifactSearch args).log
        = [((o.Common.MergedIndexes.SearchByKeywords o.minScore args).filter
            (fun e => decide (e.Type_ = t))).map (entryRow o.Common.MergedIndexes)]
    ∧ printedTables (({ o with artifactType := "" }).RunArtifactSearch args).log
        = [(o.Common.MergedIndexes.SearchByKeywords o.minScore args).map
            (entryRow o.Common.MergedIndexes)]
    ∧ ((o.Common.MergedIndexes.SearchByKeywords o.minScore args).filter
          (fun e => decide (e.Type_ = t))).map (entryRow o.Common.MergedIndexes)
        = ((o.Common.MergedIndexes.SearchByKeywords o.minScore args).map
            (entryRow o.Common.MergedIndexes)).filter (fun row => decide (row[2]? = some t))
    ∧ List.Sublist
        (((o.Common.MergedIndexes.SearchByKeywords o.minScore args).filter
          (fun e => decide (e.Type_ = t))).map (entryRow o.Common.MergedIndexes))
        ((o.Common.MergedIndexes.SearchByKeywords o.minScore args).map
          (entryRow o.Common.MergedIndexes))
    ∧ ∀ t2 : String,
        searchCalls (({ o with artifactType := t2 }).RunArtifactSearch args).log
          = [(o.minScore, args)] := by
  refine ⟨?_, ?_, ?_, ?_, ?_⟩
  · rw [printedTables_RunArtifactSearch]
    have hk : keptBy t = fun e => decide (e.Type_ = t) :=
      funext (keptBy_of_ne_empty t ht)
    simp [hk]
  · rw [printedTables_RunArtifactSearch]
    have hk : keptBy "" = fun _ => true := funext keptBy_empty
    simp [hk]
  · rw [List.filter_map]
    congr 1
    apply List.filter_congr
    intro e _
    simp [entryRow]
  · exact (List.filter_sublist _).map _
  · intro t2
    rw [searchCalls_RunArtifactSearch]

theorem type_filter_is_post_search_witness :
    "plugin" ≠ "" ∧
    printedTables (pluginSearch.RunArtifactSearch ["cloudtrail"]).log
      = [[["core", "cloudtrail", "plugin", "r.io", "falco/cloudtrail"],
          ["extra", "cloudtrail-ext", "plugin", "r2.io", "x/cloudtrail-ext"]]] :=
  ⟨by decide, (type_filter_is_post_search defaultSearch ["cloudtrail"] "plugin" (by decide)).1.trans
    (by decide)⟩

/-- Claim C3: with the empty artifact type the table printed has one row for every entry
`SearchByKeywords` returned, in the same order, so as many rows as results,
whatever the types of the entries. -/
theorem empty_type_is_unfiltered (o : artifactSearchOptions) (args : List String)
    (h : o.artifactType = "") :
    printedTables (o.RunArtifactSearch args).log
        = [(o.Common.MergedIndexes.SearchByKeywords o.minScore args).map
            (entryRow o.Common.MergedIndexes)]
    ∧ ((o.Common.MergedIndexes.SearchByKeywords o.minScore args).map
          (entryRow o.Common.MergedIndexes)).length
        = (o.Common.MergedIndexes.SearchByKeywords o.minScore args).length := by
  constructor
  · rw [printedTables_RunArtifactSearch, h]
    have hk : keptBy "" = fun _ => true := funext keptBy_empty
    simp [hk]
  · simp

theorem empty_type_is_unfiltered_witness :
    defaultSearch.artifactType = "" ∧
    printedTables (defaultSearch.RunArtifactSearch ["cloudtrail"]).log
      = [[["core", "cloudtrail", "plugin", "r.io", "falco/cloudtrail"],
          ["core", "falco-rules", "rulesfile", "r.io", "falco/falco-rules"],
          ["extra", "cloudtrail-ext", "plugin", "r2.io", "x/cloudtrail-ext"]]] :=
  ⟨rfl, (empty_type_is_unfiltered defaultSearch ["cloudtrail"] rfl).1.trans (by decide)⟩

/-- Claim C4: the printer receives one table; each of its rows is, for an entry the
filter kept, the name of the index `IndexByEntry` reports followed by the entry's
`Name`, `Type`, `Registry` and `Repository`, so five fields; and every kept entry
has its row in the table. -/
theorem rows_are_entry_fields (o : artifactSearchOptions) (args : List String) :
    ∃ data : List (List String),
      (o.RunArtifactSearch args).log
        = [.searchByKeywords o.minScore args, .printTable .ArtifactSearch data]
      ∧ (∀ row ∈ data, row.length = 5 ∧
          ∃ e ∈ o.Common.MergedIndexes.SearchByKeywords o.minScore args,
            keptBy o.artifactType e = true ∧
            row = [(o.Common.MergedIndexes.IndexByEntry e).Name, e.Name, e.Type_,
                    e.Registry, e.Repository])
      ∧ (∀ e ∈ o.Common.MergedIndexes.SearchByKeywords o.minScore args,
          keptBy o.artifactType e = true →
            [(o.Common.MergedIndexes.IndexByEntry e).Name, e.Name, e.Type_,
              e.Registry, e.Repository] ∈ data) := by
  refine ⟨((o.Common.MergedIndexes.SearchByKeywords o.minScore args).filter
      (keptBy o.artifactType)).map (entryRow o.Common.MergedIndexes), ?_, ?_, ?_⟩
  · simp [artifactSearchOptions.RunArtifactSearch, searchRows_eq]
  · intro row hrow
    rcases List.mem_map.1 hrow with ⟨e, he, rfl⟩
    rcases List.mem_filter.1 he with ⟨hmem, hkept⟩
    exact ⟨rfl, e, hmem, hkept, rfl⟩
  · intro e he hkept
    exact List.mem_map.2 ⟨e, List.mem_filter.2 ⟨he, hkept⟩, rfl⟩

/-- Claim C8 as stated fails: after `--min-score 2` the argument list `cloudtrail` is
not empty and passes the argument check, but the command ends with the error of
`Validate` and `SearchByKeywords` is never called. -/
theorem keywords_not_handed_when_score_invalid :
    ["cloudtrail"] ≠ ([] : List String) ∧
    MinimumNArgs 1 ["cloudtrail"] = none ∧
    searchCalls ((NewArtifactSearchCmd tooHighSearch).execute none ["cloudtrail"]).log = [] ∧
    ((NewArtifactSearchCmd tooHighSearch).execute none ["cloudtrail"]).result
      = some (.errorf "minScore must be a number within (0,1]") := by
  have hv : tooHighSearch.Validate = some (.errorf "minScore must be a number within (0,1]") := by
    simp [artifactSearchOptions.Validate, tooHighSearch, Float64.le, Float64.gt]
  refine ⟨by simp, by simp [MinimumNArgs], ?_, ?_⟩ <;>
    simp [Command.execute, NewArtifactSearchCmd, MinimumNArgs, hv, searchCalls]

/-- Claim C8, amended: on an empty argument list the command fails with the error of the
argument check and `SearchByKeywords` is never called; on a non-empty one the
argument check passes and, when the pre-run hooks pass as well (the inherited ones
and `Validate`), `SearchByKeywords` is called once with the threshold and all the
arguments in their order. -/
theorem search_requires_a_keyword (o : artifactSearchOptions) (inherited : Option GoError)
    (args : List String) :
    (args = [] →
      MinimumNArgs 1 args ≠ none ∧
      ((NewArtifactSearchCmd o).execute inherited args).result = MinimumNArgs 1 args ∧
      searchCalls ((NewArtifactSearchCmd o).execute inherited args).log = []) ∧
    (args ≠ [] →
      MinimumNArgs 1 args = none ∧
      (inherited = none → o.Validate = none →
        searchCalls ((NewArtifactSearchCmd o).execute inherited args).log
          = [(o.minScore, args)])) := by
  constructor
  · rintro rfl
    simp [Command.execute, NewArtifactSearchCmd, MinimumNArgs, searchCalls]
  · intro hne
    have hlen : ¬ args.length < 1 := by
      cases args with
      | nil => exact absurd rfl hne
      | cons a rest => simp
    have hargs : MinimumNArgs 1 args = none := by simp [MinimumNArgs, hlen]
    refine ⟨hargs, ?_⟩
    rintro rfl hv
    simp [Command.execute, NewArtifactSearchCmd, hargs, hv, searchCalls_RunArtifactSearch]

theorem search_requires_a_keyword_witness :
    ["cloudtrail", "k8s"] ≠ ([] : List String) ∧
    defaultSearch.Validate = none ∧
    searchCalls ((NewArtifactSearchCmd defaultSearch).execute none ["cloudtrail", "k8s"]).log
      = [(Float64.finite (65 / 100), ["cloudtrail", "k8s"])] :=
  ⟨by simp,
    by simp [artifactSearchOptions.Validate, defaultSearch, Float64.le, Float64.gt]; norm_num,
    ((search_requires_a_keyword defaultSearch none ["cloudtrail", "k8s"]).2 (by simp)).2 rfl
      (by simp [artifactSearchOptions.Validate, defaultSearch, Float64.le, Float64.gt]; norm_num)⟩

/-! ## Theorems: `artifact info` -/

section Info

variable {World Client Repo : Type}

theorem processName_notFound (oci : Oci World Client Repo) (o : artifactInfoOptions)
    (client : Client) (s : LoopState World) (name : String)
    (h : resolveRef oci o name = none) :
    processName oci o client s name
      = .next { world := s.world, log := s.log ++ [cannotFind name], data := s.data } := by
  simp [processName, h]

theorem processName_noRepository (oci : Oci World Client Repo) (o : artifactInfoOptions)
    (client : Client) (s : LoopState World) (name ref : String) (err : GoError)
    (h : resolveRef oci o name = some ref)
    (hrepo : oci.NewRepository ref client o.PlainHTTP = .error err) :
    processName oci o client s name = .exit s err := by
  simp [processName, h, hrepo]

theorem processName_tagsFailed (oci : Oci World Client Repo) (o : artifactInfoOptions)
    (client : Client) (s : LoopState World) (name ref : String) (repo : Repo)
    (err : GoError) (w : World)
    (h : resolveRef oci o name = some ref)
    (hrepo : oci.NewRepository ref client o.PlainHTTP = .ok repo)
    (htags : oci.Tags s.world repo = (.error err, w)) (hc : err.isCanceled = false) :
    processName oci o client s name
      = .next { world := w, log := s.log ++ [.tags ref, cannotRetrieveTags ref err],
                data := s.data } := by
  simp [processName, h, hrepo, htags, hc]

theorem processName_canceled (oci : Oci World Client Repo) (o : artifactInfoOptions)
    (client : Client) (s : LoopState World) (name ref : String) (repo : Repo)
    (err : GoError) (w : World)
    (h : resolveRef oci o name = some ref)
    (hrepo : oci.NewRepository ref client o.PlainHTTP = .ok repo)
    (htags : oci.Tags s.world repo = (.error err, w)) (hc : err.isCanceled = true) :
    processName oci o client s name
      = .exit { world := w, log := s.log ++ [.tags ref], data := s.data } err := by
  simp [processName, h, hrepo, htags, hc]

theorem processName_listed (oci : Oci World Client Repo) (o : artifactInfoOptions)
    (client : Client) (s : LoopState World) (name ref : String) (repo : Repo)
    (tags : List String) (w : World)
    (h : resolveRef oci o name = some ref)
    (hrepo : oci.NewRepository ref client o.PlainHTTP = .ok repo)
    (htags : oci.Tags s.world repo = (.ok tags, w)) :
    processName oci o client s name
      = .next { world := w, log := s.log ++ [.tags ref],
                data := s.data ++ [[ref, ", ".intercalate tags]] } := by
  simp [processName, h, hrepo, htags]

theorem processName_prependLog (oci : Oci World Client Repo) (o : artifactInfoOptions)
    (client : Client) (l : List Event) (s : LoopState World) (name : String) :
    processName oci o client (s.prependLog l) name
      = (processName oci o client s name).prependLog l := by
  cases h : resolveRef oci o name with
  | none =>
    rw [processName_notFound _ _ _ _ _ h, processName_notFound _ _ _ _ _ h]
    simp [Step.prependLog, LoopState.prependLog]
  | some ref =>
    cases hrepo : oci.NewRepository ref client o.PlainHTTP with
    | error err =>
      rw [processName_noRepository _ _ _ _ _ _ _ h hrepo,
        processName_noRepository _ _ _ _ _ _ _ h hrepo]
      rfl
    | ok repo =>
      have hw : (s.prependLog l).world = s.world := rfl
      rcases htags : oci.Tags s.world repo with ⟨err | tags, w⟩
      · cases hc : err.isCanceled with
        | false =>
          rw [processName_tagsFailed _ _ _ _ _ _ _ _ _ h hrepo (hw ▸ htags) hc,
            processName_tagsFailed _ _ _ _ _ _ _ _ _ h hrepo htags hc]
          simp [Step.prependLog, LoopState.prependLog]
        | true =>
          rw [processName_canceled _ _ _ _ _ _ _ _ _ h hrepo (hw ▸ htags) hc,
            processName_canceled _ _ _ _ _ _ _ _ _ h hrepo htags hc]
          simp [Step.prependLog, LoopState.prependLog]
      · rw [processName_listed _ _ _ _ _ _ _ _ _ h hrepo (hw ▸ htags),
          processName_listed _ _ _ _ _ _ _ _ _ h hrepo htags]
        simp [Step.prependLog, LoopState.prependLog]

theorem namesLoop_prependLog (oci : Oci World Client Repo) (o : artifactInfoOptions)
    (client : Client) (l : List Event) (s : LoopState World) (names : List String) :
    namesLoop oci o client (s.prependLog l) names
      = ((namesLoop oci o client s names).1.prependLog l,
          (namesLoop oci o client s names).2) := by
  induction names generalizing s with
  | nil => simp [namesLoop]
  | cons name rest ih =>
    simp only [namesLoop, processName_prependLog]
    cases processName oci o client s name with
    | next s1 => simp [Step.prependLog, ih]
    | exit s1 err => simp [Step.prependLog]

theorem namesLoop_append (oci : Oci World Client Repo) (o : artifactInfoOptions)
    (client : Client) (s : LoopState World) (pre post : List String) :
    namesLoop oci o client s (pre ++ post)
      = match namesLoop oci o client s pre with
        | (s1, none) => namesLoop oci o client s1 post
        | (s1, some err) => (s1, some err) := by
  induction pre generalizing s with
  | nil => simp [namesLoop]
  | cons name rest ih =>
    simp only [List.cons_append, namesLoop]
    cases processName oci o client s name with
    | next s1 => simp [ih]
    | exit s1 err => simp

theorem printedTables_append (l1 l2 : List Event) :
    printedTables (l1 ++ l2) = printedTables l1 ++ printedTables l2 := by
  induction l1 with
  | nil => simp [printedTables]
  | cons e rest ih => cases e <;> simp [printedTables, ih]

theorem tagsCalls_append (l1 l2 : List Event) :
    tagsCalls (l1 ++ l2) = tagsCalls l1 ++ tagsCalls l2 := by
  induction l1 with
  | nil => simp [tagsCalls]
  | cons e rest ih => cases e <;> simp [tagsCalls, ih]

theorem printedTables_processName (oci : Oci World Client Repo) (o : artifactInfoOptions)
    (client : Client) (s : LoopState World) (name : String) :
    printedTables (processName oci o client s name).state.log = printedTables s.log := by
  cases h : resolveRef oci o name with
  | none =>
    rw [processName_notFound _ _ _ _ _ h]
    simp [Step.state, printedTables_append, printedTables, cannotFind]
  | some ref =>
    cases hrepo : oci.NewRepository ref client o.PlainHTTP with
    | error err =>
      rw [processName_noRepository _ _ _ _ _ _ _ h hrepo]
      rfl
    | ok repo =>
      rcases htags : oci.Tags s.world repo with ⟨err | tags, w⟩
      · cases hc : err.isCanceled with
        | false =>
          rw [processName_tagsFailed _ _ _ _ _ _ _ _ _ h hrepo htags hc]
          simp [Step.state, printedTables_append, printedTables, cannotRetrieveTags]
        | true =>
          rw [processName_canceled _ _ _ _ _ _ _ _ _ h hrepo htags hc]
          simp [Step.state, printedTables_append, printedTables]
      · rw [processName_listed _ _ _ _ _ _ _ _ _ h hrepo htags]
        simp [Step.state, printedTables_append, printedTables]

theorem printedTables_namesLoop (oci : Oci World Client Repo) (o : artifactInfoOptions)
    (client : Client) (s : LoopState World) (names : List String) :
    printedTables (namesLoop oci o client s names).1.log = printedTables s.log := by
  induction names generalizing s with
  | nil => simp [namesLoop]
  | cons name rest ih =>
    have hstep := printedTables_processName oci o client s name
    simp only [namesLoop]
    cases hp : processName oci o client s name with
    | next s1 =>
      rw [hp] at hstep
      simpa [ih] using hstep
    | exit s1 err =>
      rw [hp] at hstep
      simpa using hstep

theorem data_namesLoop (oci : Oci World Client Repo) (o : artifactInfoOptions)
    (client : Client) (s : LoopState World) (names : List String) :
    (namesLoop oci o client s names).1.data
      = s.data ++ expectedRows oci o client s.world names := by
  induction names generalizing s with
  | nil => simp [namesLoop, expectedRows]
  | cons name rest ih =>
    cases h : resolveRef oci o name with
    | none =>
      simp [namesLoop, expectedRows, processName_notFound _ _ _ _ _ h, h, ih]
    | some ref =>
      cases hrepo : oci.NewRepository ref client o.PlainHTTP with
      | error err =>
        simp [namesLoop, expectedRows, processName_noRepository _ _ _ _ _ _ _ h hrepo, h, hrepo]
      | ok repo =>
        rcases htags : oci.Tags s.world repo with ⟨err | tags, w⟩
        · cases hc : err.isCanceled with
          | false =>
            simp [namesLoop, expectedRows,
              processName_tagsFailed _ _ _ _ _ _ _ _ _ h hrepo htags hc, h, hrepo, htags, hc, ih]
          | true =>
            simp [namesLoop, expectedRows,
              processName_canceled _ _ _ _ _ _ _ _ _ h hrepo htags hc, h, hrepo, htags, hc]
        · simp [namesLoop, expectedRows,
            processName_listed _ _ _ _ _ _ _ _ _ h hrepo htags, h, hrepo, htags, ih]

theorem afterLoop_prependLog (o : artifactInfoOptions) (l : List Event)
    (t : LoopState World) (r : Option GoError) :
    afterLoop o (t.prependLog l, r)
      = { log := l ++ (afterLoop o (t, r)).log, result := (afterLoop o (t, r)).result } := by
  cases r with
  | some err => simp [afterLoop, LoopState.prependLog]
  | none =>
    by_cases hd : t.data.length > 0
    · simp [afterLoop, LoopState.prependLog, hd]
    · simp [afterLoop, LoopState.prependLog, hd]

theorem resolveRef_notFound (oci : Oci World Client Repo) (o : artifactInfoOptions)
    (name : String) (hparse : ∃ err, oci.ParseReference name = .error err)
    (hfind : o.Common.MergedIndexes.EntryByName name = none) :
    resolveRef oci o name = none := by
  rcases hparse with ⟨err, hparse⟩
  simp [resolveRef, hparse, hfind]

theorem afterLoop_namesLoop_log (oci : Oci World Client Repo) (o : artifactInfoOptions)
    (client : Client) (w : World) (l : List Event) (d : List (List String))
    (names : List String) :
    afterLoop o (namesLoop oci o client { world := w, log := l, data := d } names)
      = { log := l ++ (afterLoop o
            (namesLoop oci o client { world := w, log := [], data := d } names)).log
          result := (afterLoop o
            (namesLoop oci o client { world := w, log := [], data := d } names)).result } := by
  have h : ({ world := w, log := l, data := d } : LoopState World)
      = LoopState.prependLog l { world := w, log := [], data := d } := by
    simp [LoopState.prependLog]
  rw [h, namesLoop_prependLog, afterLoop_prependLog]

/-- Claim C7: an argument that neither parses as a reference nor is found by `EntryByName`
changes nothing but the warnings: the run on a list with such an argument returns
the same result, lists the same tags and prints the same tables as the run on the
list without it; its log is the log of that run with at most the warning for the
argument added, and with exactly that warning added when the loop reaches the
argument. -/
theorem not_found_is_skipped (oci : Oci World Client Repo) (o : artifactInfoOptions)
    (w : World) (pre post : List String) (name : String)
    (hparse : ∃ err, oci.ParseReference name = .error err)
    (hfind : o.Common.MergedIndexes.EntryByName name = none) :
    (o.RunArtifactInfo oci w (pre ++ name :: post)).result
        = (o.RunArtifactInfo oci w (pre ++ post)).result
    ∧ printedTables (o.RunArtifactInfo oci w (pre ++ name :: post)).log
        = printedTables (o.RunArtifactInfo oci w (pre ++ post)).log
    ∧ tagsCalls (o.RunArtifactInfo oci w (pre ++ name :: post)).log
        = tagsCalls (o.RunArtifactInfo oci w (pre ++ post)).log
    ∧ (∃ l1 l2 : List Event,
        (o.RunArtifactInfo oci w (pre ++ post)).log = l1 ++ l2 ∧
        ((o.RunArtifactInfo oci w (pre ++ name :: post)).log = l1 ++ cannotFind name :: l2 ∨
          (o.RunArtifactInfo oci w (pre ++ name :: post)).log = l1 ++ l2))
    ∧ ∀ (client : Client) (s : LoopState World),
        oci.Client = .ok client →
        namesLoop oci o client (LoopState.init w) pre = (s, none) →
        ∃ l2 : List Event,
          (o.RunArtifactInfo oci w (pre ++ name :: post)).log
            = s.log ++ cannotFind name :: l2 ∧
          (o.RunArtifactInfo oci w (pre ++ post)).log = s.log ++ l2 := by
  have hres := resolveRef_notFound oci o name hparse hfind
  have hreached : ∀ (client : Client) (s : LoopState World),
      oci.Client = .ok client →
      namesLoop oci o client (LoopState.init w) pre = (s, none) →
      ∃ l2 : List Event,
        (o.RunArtifactInfo oci w (pre ++ name :: post)).log
          = s.log ++ cannotFind name :: l2 ∧
        (o.RunArtifactInfo oci w (pre ++ post)).log = s.log ++ l2 := by
    intro client s hclient hpre
    obtain ⟨sw, sl, sd⟩ := s
    simp only [artifactInfoOptions.RunArtifactInfo, hclient, namesLoop_append, hpre, namesLoop,
      processName_notFound _ _ _ _ _ hres]
    rw [afterLoop_namesLoop_log oci o client sw (sl ++ [cannotFind name]) sd post,
      afterLoop_namesLoop_log oci o client sw sl sd post]
    exact ⟨_, by simp, rfl⟩
  refine (fun h => ⟨h.1, h.2.1, h.2.2.1, h.2.2.2, hreached⟩ : _ ∧ _ ∧ _ ∧ _ → _) ?_
  unfold artifactInfoOptions.RunArtifactInfo
  cases hclient : oci.Client with
  | error err => exact ⟨rfl, rfl, rfl, [], [], rfl, Or.inr rfl⟩
  | ok client =>
    simp only [namesLoop_append]
    rcases hpre : namesLoop oci o client (LoopState.init w) pre with ⟨s, _ | err⟩
    · obtain ⟨sw, sl, sd⟩ := s
      simp only [namesLoop, processName_notFound _ _ _ _ _ hres]
      rw [afterLoop_namesLoop_log oci o client sw (sl ++ [cannotFind name]) sd post,
        afterLoop_namesLoop_log oci o client sw sl sd post]
      refine ⟨rfl, ?_, ?_, sl, _, rfl, Or.inl (by simp)⟩
      · simp [printedTables_append, printedTables, cannotFind]
      · simp [tagsCalls_append, tagsCalls, cannotFind]
    · exact ⟨rfl, rfl, rfl, s.log, [], by simp [afterLoop], Or.inr (by simp [afterLoop])⟩

theorem not_found_is_skipped_witness :
    (sampleInfo.RunArtifactInfo (sampleOci 100) 0 ["cloudtrail", "nope", "falco-rules"]).result
        = (sampleInfo.RunArtifactInfo (sampleOci 100) 0 ["cloudtrail", "falco-rules"]).result
    ∧ printedTables
        (sampleInfo.RunArtifactInfo (sampleOci 100) 0 ["cloudtrail", "nope", "falco-rules"]).log
        = [[["r.io/falco/cloudtrail", "0.1.0, latest"],
            ["r.io/falco/falco-rules", "0.1.0, latest"]]] :=
  ⟨(not_found_is_skipped (sampleOci 100) sampleInfo 0 ["cloudtrail"] ["falco-rules"] "nope"
      ⟨_, rfl⟩ rfl).1,
    (not_found_is_skipped (sampleOci 100) sampleInfo 0 ["cloudtrail"] ["falco-rules"] "nope"
      ⟨_, rfl⟩ rfl).2.1.trans (by decide)⟩

/-- Claim C5 as stated fails: building the repository for `broken` fails with an error
that is not a cancellation, and `RunArtifactInfo` returns that error at once: no
warning is printed and the later name `cloudtrail`, whose tags would be listed
and printed, is never processed. -/
theorem repository_failure_stops_the_run :
    resolveRef (sampleOci 100) sampleInfo "broken" = some "r io/x" ∧
    (sampleOci 100).NewRepository "r io/x" () false
      = .error (.wrap "unable to create repository"
          (.errorf "invalid reference: invalid registry")) ∧
    GoError.isCanceled (.wrap "unable to create repository"
          (.errorf "invalid reference: invalid registry")) = false ∧
    sampleInfo.RunArtifactInfo (sampleOci 100) 0 ["broken", "cloudtrail"]
      = { log := []
          result := some (.wrap "unable to create repository"
            (.errorf "invalid reference: invalid registry")) } ∧
    sampleInfo.RunArtifactInfo (sampleOci 100) 0 ["cloudtrail"]
      = { log := [.tags "r.io/falco/cloudtrail",
                  .printTable .ArtifactInfo [["r.io/falco/cloudtrail", "0.1.0, latest"]]]
          result := none } := by
  refine ⟨by decide, rfl, by decide, by decide, by decide⟩

/-- Claim C5, amended: when the loop reaches a name that cannot be found, or whose tags
cannot be listed for a reason other than cancellation, it prints a warning, keeps
the rows collected so far and goes on: the run is the rest of the run on the
remaining names from there, and when the name is the last one the run ends with
the table step, not with an error of the loop. -/
theorem warned_failures_continue (oci : Oci World Client Repo) (o : artifactInfoOptions)
    (w : World) (client : Client) (pre post : List String) (name : String)
    (s : LoopState World)
    (hclient : oci.Client = .ok client)
    (hpre : namesLoop oci o client (LoopState.init w) pre = (s, none))
    (hfail : resolveRef oci o name = none ∨
      ∃ ref repo err w1, resolveRef oci o name = some ref ∧
        oci.NewRepository ref client o.PlainHTTP = .ok repo ∧
        oci.Tags s.world repo = (.error err, w1) ∧ err.isCanceled = false) :
    ∃ s1 : LoopState World,
      processName oci o client s name = .next s1 ∧
      s1.data = s.data ∧
      (s1.log = s.log ++ [cannotFind name] ∨
        ∃ ref err, s1.log = s.log ++ [.tags ref, cannotRetrieveTags ref err]) ∧
      o.RunArtifactInfo oci w (pre ++ name :: post)
        = afterLoop o (namesLoop oci o client s1 post) ∧
      o.RunArtifactInfo oci w (pre ++ [name]) = afterLoop o (s1, none) := by
  have hrun : ∀ (s1 : LoopState World) (rest : List String),
      processName oci o client s name = .next s1 →
      o.RunArtifactInfo oci w (pre ++ name :: rest)
        = afterLoop o (namesLoop oci o client s1 rest) := by
    intro s1 rest hstep
    simp [artifactInfoOptions.RunArtifactInfo, hclient, namesLoop_append, hpre, namesLoop,
      hstep]
  rcases hfail with hnone | ⟨ref, repo, err, w1, href, hrepo, htags, hc⟩
  · have hstep := processName_notFound oci o client s name hnone
    exact ⟨_, hstep, rfl, Or.inl rfl, hrun _ post hstep, by
      rw [hrun _ [] hstep]; rfl⟩
  · have hstep := processName_tagsFailed oci o client s name ref repo err w1 href hrepo htags hc
    exact ⟨_, hstep, rfl, Or.inr ⟨ref, err, rfl⟩, hrun _ post hstep, by
      rw [hrun _ [] hstep]; rfl⟩

theorem warned_failures_continue_witness :
    ∃ s1 : LoopState Nat,
      s1.data = [["r.io/falco/cloudtrail", "0.1.0, latest"]] ∧
      sampleInfo.RunArtifactInfo (sampleOci 100) 0
          ["cloudtrail", "cloudtrail-ext", "falco-rules"]
        = afterLoop sampleInfo (namesLoop (sampleOci 100) sampleInfo () s1 ["falco-rules"]) ∧
      (sampleInfo.RunArtifactInfo (sampleOci 100) 0
          ["cloudtrail", "cloudtrail-ext", "falco-rules"]).result = none := by
  obtain ⟨s1, _, hdata, _, hrun, _⟩ :=
    warned_failures_continue (sampleOci 100) sampleInfo 0 () ["cloudtrail"] ["falco-rules"]
      "cloudtrail-ext"
      { world := 1, log := [.tags "r.io/falco/cloudtrail"],
        data := [["r.io/falco/cloudtrail", "0.1.0, latest"]] }
      rfl rfl
      (Or.inr ⟨"r2.io/x/cloudtrail-ext", "r2.io/x/cloudtrail-ext", .errorf "unauthorized", 2,
        by decide, rfl, rfl, by decide⟩)
  exact ⟨s1, hdata, hrun, by decide⟩

/-- Claim C6: when the loop reaches a name whose tag listing fails with an error that is
`context.Canceled`, `RunArtifactInfo` returns that error; the log ends with that
listing, so none of the later names is processed, and no table is printed,
whatever rows the earlier names collected. -/
theorem cancellation_aborts_the_run (oci : Oci World Client Repo) (o : artifactInfoOptions)
    (w w1 : World) (client : Client) (pre post : List String) (name ref : String)
    (repo : Repo) (err : GoError) (s : LoopState World)
    (hclient : oci.Client = .ok client)
    (hpre : namesLoop oci o client (LoopState.init w) pre = (s, none))
    (href : resolveRef oci o name = some ref)
    (hrepo : oci.NewRepository ref client o.PlainHTTP = .ok repo)
    (htags : oci.Tags s.world repo = (.error err, w1))
    (hcancel : err.isCanceled = true) :
    o.RunArtifactInfo oci w (pre ++ name :: post)
        = { log := s.log ++ [.tags ref], result := some err }
    ∧ o.RunArtifactInfo oci w (pre ++ name :: post) = o.RunArtifactInfo oci w (pre ++ [name])
    ∧ printedTables (o.RunArtifactInfo oci w (pre ++ name :: post)).log = []
    ∧ tagsCalls (o.RunArtifactInfo oci w (pre ++ name :: post)).log
        = tagsCalls s.log ++ [ref] := by
  have hstep := processName_canceled oci o client s name ref repo err w1 href hrepo htags hcancel
  have hrun : ∀ rest : List String, o.RunArtifactInfo oci w (pre ++ name :: rest)
      = { log := s.log ++ [.tags ref], result := some err } := by
    intro rest
    simp [artifactInfoOptions.RunArtifactInfo, hclient, namesLoop_append, hpre, namesLoop,
      hstep, afterLoop]
  have hlog : printedTables s.log = [] := by
    have h := printedTables_namesLoop oci o client (LoopState.init w) pre
    rw [hpre] at h
    simpa [LoopState.init, printedTables] using h
  refine ⟨hrun post, ?_, ?_, ?_⟩
  · rw [hrun post, hrun []]
  · rw [hrun post]
    simp [printedTables_append, printedTables, hlog]
  · rw [hrun post]
    simp [tagsCalls_append, tagsCalls]

theorem cancellation_aborts_the_run_witness :
    (namesLoop (sampleOci 2) sampleInfo () (LoopState.init 0) ["cloudtrail", "falco-rules"]).1.data
      = [["r.io/falco/cloudtrail", "0.1.0, latest"], ["r.io/falco/falco-rules", "0.1.0, latest"]]
    ∧ sampleInfo.RunArtifactInfo (sampleOci 2) 0
        ["cloudtrail", "falco-rules", "r.io/falco/cloudtrail:0.1.0", "cloudtrail-ext"]
      = { log := [.tags "r.io/falco/cloudtrail", .tags "r.io/falco/falco-rules",
                  .tags "r.io/falco/cloudtrail"]
          result := some (.wrap "Get: context canceled" .contextCanceled) } :=
  ⟨by decide,
    (cancellation_aborts_the_run (sampleOci 2) sampleInfo 0 3 () ["cloudtrail", "falco-rules"]
      ["cloudtrail-ext"] "r.io/falco/cloudtrail:0.1.0" "r.io/falco/cloudtrail"
      "r.io/falco/cloudtrail" (.wrap "Get: context canceled" .contextCanceled)
      { world := 2, log := [.tags "r.io/falco/cloudtrail", .tags "r.io/falco/falco-rules"],
        data := [["r.io/falco/cloudtrail", "0.1.0, latest"],
                 ["r.io/falco/falco-rules", "0.1.0, latest"]] }
      rfl rfl (by decide) rfl rfl (by decide)).1⟩

/-- Claim C9 as stated fails: a row is collected for `cloudtrail`, then listing the tags
of `falco-rules` is canceled; the printer is not called although a row was
collected, and the value returned is the cancellation error, not the printer's
result. -/
theorem rows_collected_but_no_table :
    (namesLoop (sampleOci 1) sampleInfo () (LoopState.init 0) ["cloudtrail", "falco-rules"]).1.data
      = [["r.io/falco/cloudtrail", "0.1.0, latest"]]
    ∧ printedTables
        (sampleInfo.RunArtifactInfo (sampleOci 1) 0 ["cloudtrail", "falco-rules"]).log = []
    ∧ (sampleInfo.RunArtifactInfo (sampleOci 1) 0 ["cloudtrail", "falco-rules"]).result
        = some (.wrap "Get: context canceled" .contextCanceled)
    ∧ sampleInfo.Common.PrintTable .ArtifactInfo [["r.io/falco/cloudtrail", "0.1.0, latest"]]
        = none := by
  refine ⟨by decide, by decide, by decide, by decide⟩

/-- Claim C9, amended: when the client is obtained and the loop runs through all the names
without returning, the printer is called if and only if at least one row was
collected; with no row the run returns nil without calling the printer, and with
rows it calls the printer once on them and returns the printer's result. -/
theorem table_only_if_data (oci : Oci World Client Repo) (o : artifactInfoOptions)
    (w : World) (client : Client) (args : List String) (s : LoopState World)
    (hclient : oci.Client = .ok client)
    (hloop : namesLoop oci o client (LoopState.init w) args = (s, none)) :
    (printedTables (o.RunArtifactInfo oci w args).log ≠ [] ↔ s.data ≠ [])
    ∧ (s.data = [] →
        o.RunArtifactInfo oci w args = { log := s.log, result := none } ∧
        printedTables (o.RunArtifactInfo oci w args).log = [])
    ∧ (s.data ≠ [] →
        o.RunArtifactInfo oci w args
          = { log := s.log ++ [.printTable .ArtifactInfo s.data]
              result := o.Common.PrintTable .ArtifactInfo s.data } ∧
        printedTables (o.RunArtifactInfo oci w args).log = [s.data]) := by
  have hlog : printedTables s.log = [] := by
    have h := printedTables_namesLoop oci o client (LoopState.init w) args
    rw [hloop] at h
    simpa [LoopState.init, printedTables] using h
  have hempty : s.data = [] →
      o.RunArtifactInfo oci w args = { log := s.log, result := none } := by
    intro hd
    simp [artifactInfoOptions.RunArtifactInfo, hclient, hloop, afterLoop, hd]
  have hrows : s.data ≠ [] →
      o.RunArtifactInfo oci w args
        = { log := s.log ++ [.printTable .ArtifactInfo s.data]
            result := o.Common.PrintTable .ArtifactInfo s.data } := by
    intro hd
    have hpos : s.data.length > 0 := List.length_pos.2 hd
    simp [artifactInfoOptions.RunArtifactInfo, hclient, hloop, afterLoop, hpos]
  refine ⟨?_, ?_, ?_⟩
  · by_cases hd : s.data = []
    · simp [hempty hd, hlog, hd]
    · simp [hrows hd, printedTables_append, printedTables, hlog, hd]
  · intro hd
    exact ⟨hempty hd, by simp [hempty hd, hlog]⟩
  · intro hd
    exact ⟨hrows hd, by simp [hrows hd, printedTables_append, printedTables, hlog]⟩

theorem table_only_if_data_witness :
    sampleInfo.RunArtifactInfo (sampleOci 100) 0 ["nope", "cloudtrail-ext"]
      = { log := [cannotFind "nope", .tags "r2.io/x/cloudtrail-ext",
                  cannotRetrieveTags "r2.io/x/cloudtrail-ext" (.errorf "unauthorized")]
          result := none }
    ∧ printedTables
        (sampleInfo.RunArtifactInfo (sampleOci 100) 0 ["nope", "cloudtrail-ext"]).log = [] :=
  (table_only_if_data (sampleOci 100) sampleInfo 0 () ["nope", "cloudtrail-ext"]
    { world := 1
      log := [cannotFind "nope", .tags "r2.io/x/cloudtrail-ext",
              cannotRetrieveTags "r2.io/x/cloudtrail-ext" (.errorf "unauthorized")]
      data := [] }
    rfl rfl).2.1 rfl

theorem expectedRows_refs (oci : Oci World Client Repo) (o : artifactInfoOptions)
    (client : Client) (w : World) (args : List String) :
    List.Sublist ((expectedRows oci o client w args).map List.head?)
      ((args.filterMap (resolveRef oci o)).map some) := by
  induction args generalizing w with
  | nil => simp [expectedRows]
  | cons name rest ih =>
    cases h : resolveRef oci o name with
    | none => simpa [expectedRows, h, List.filterMap_cons] using ih w
    | some ref =>
      cases hrepo : oci.NewRepository ref client o.PlainHTTP with
      | error err => simp [expectedRows, h, hrepo]
      | ok repo =>
        rcases htags : oci.Tags w repo with ⟨err | tags, w1⟩
        · cases hc : err.isCanceled with
          | false =>
            simpa [expectedRows, h, hrepo, htags, hc, List.filterMap_cons]
              using (ih w1).cons (some ref)
          | true => simp [expectedRows, h, hrepo, htags, hc]
        · simpa [expectedRows, h, hrepo, htags, List.filterMap_cons]
            using (ih w1).cons₂ (some ref)

theorem expectedRows_length (oci : Oci World Client Repo) (o : artifactInfoOptions)
    (client : Client) (w : World) (args : List String) :
    ∀ row ∈ expectedRows oci o client w args, row.length = 2 := by
  induction args generalizing w with
  | nil => simp [expectedRows]
  | cons name rest ih =>
    cases h : resolveRef oci o name with
    | none => simpa [expectedRows, h] using ih w
    | some ref =>
      cases hrepo : oci.NewRepository ref client o.PlainHTTP with
      | error err => simp [expectedRows, h, hrepo]
      | ok repo =>
        rcases htags : oci.Tags w repo with ⟨err | tags, w1⟩
        · cases hc : err.isCanceled with
          | false => simpa [expectedRows, h, hrepo, htags, hc] using ih w1
          | true => simp [expectedRows, h, hrepo, htags, hc]
        · simpa [expectedRows, h, hrepo, htags] using ih w1

/-- Claim C10: a name that does not parse as a reference and is found as the entry `e` is
resolved to `e.Registry + "/" + e.Repository`, and that is the reference whose
tags are listed; the rows the loop collects are the rows of the arguments whose
tag listing succeeded, each the reference and its tags joined with ", ", in the
order of the arguments; and a run that gets through all the names with rows
prints exactly these rows. -/
theorem names_resolve_to_registry_locations (oci : Oci World Client Repo)
    (o : artifactInfoOptions) (client : Client) :
    (∀ (name : String) (e : Entry) (err : GoError),
        oci.ParseReference name = .error err →
        o.Common.MergedIndexes.EntryByName name = some e →
        resolveRef oci o name = some (e.Registry ++ "/" ++ e.Repository) ∧
        ∀ (s : LoopState World) (repo : Repo),
          oci.NewRepository (e.Registry ++ "/" ++ e.Repository) client o.PlainHTTP = .ok repo →
          tagsCalls (processName oci o client s name).state.log
            = tagsCalls s.log ++ [e.Registry ++ "/" ++ e.Repository])
    ∧ (∀ (s : LoopState World) (args : List String),
        (namesLoop oci o client s args).1.data
          = s.data ++ expectedRows oci o client s.world args)
    ∧ (∀ (w : World) (args : List String),
        (∀ row ∈ expectedRows oci o client w args, row.length = 2) ∧
        List.Sublist ((expectedRows oci o client w args).map List.head?)
          ((args.filterMap (resolveRef oci o)).map some))
    ∧ (∀ (w : World) (args : List String) (s : LoopState World),
        oci.Client = .ok client →
        namesLoop oci o client (LoopState.init w) args = (s, none) →
        expectedRows oci o client w args ≠ [] →
        printedTables (o.RunArtifactInfo oci w args).log
          = [expectedRows oci o client w args]) := by
  refine ⟨?_, data_namesLoop oci o client, ?_, ?_⟩
  · intro name e err hparse hfind
    have href : resolveRef oci o name = some (e.Registry ++ "/" ++ e.Repository) := by
      simp [resolveRef, hparse, hfind]
    refine ⟨href, ?_⟩
    intro s repo hrepo
    rcases htags : oci.Tags s.world repo with ⟨terr | tags, w1⟩
    · cases hc : terr.isCanceled with
      | false =>
        rw [processName_tagsFailed _ _ _ _ _ _ _ _ _ href hrepo htags hc]
        simp [Step.state, tagsCalls_append, tagsCalls, cannotRetrieveTags]
      | true =>
        rw [processName_canceled _ _ _ _ _ _ _ _ _ href hrepo htags hc]
        simp [Step.state, tagsCalls_append, tagsCalls]
    · rw [processName_listed _ _ _ _ _ _ _ _ _ href hrepo htags]
      simp [Step.state, tagsCalls_append, tagsCalls]
  · intro w args
    exact ⟨expectedRows_length oci o client w args, expectedRows_refs oci o client w args⟩
  · intro w args s hclient hloop hne
    have hdata : s.data = expectedRows oci o client w args := by
      have h := data_namesLoop oci o client (LoopState.init w) args
      rw [hloop] at h
      simpa [LoopState.init] using h
    have hlog : printedTables s.log = [] := by
      have h := printedTables_namesLoop oci o client (LoopState.init w) args
      rw [hloop] at h
      simpa [LoopState.init, printedTables] using h
    have hpos : s.data.length > 0 := List.length_pos.2 (hdata ▸ hne)
    have hrun : o.RunArtifactInfo oci w args
        = { log := s.log ++ [.printTable .ArtifactInfo s.data]
            result := o.Common.PrintTable .ArtifactInfo s.data } := by
      simp [artifactInfoOptions.RunArtifactInfo, hclient, hloop, afterLoop, hpos]
    rw [hrun, ← hdata]
    simp [printedTables_append, printedTables, hlog]

theorem names_resolve_to_registry_locations_witness :
    resolveRef (sampleOci 100) sampleInfo "cloudtrail" = some "r.io/falco/cloudtrail"
    ∧ (namesLoop (sampleOci 100) sampleInfo () (LoopState.init 0)
        ["cloudtrail-ext", "cloudtrail", "nope", "r.io/falco/cloudtrail:0.1.0", "falco-rules"]).1.data
      = [["r.io/falco/cloudtrail", "0.1.0, latest"],
         ["r.io/falco/cloudtrail", "0.1.0, latest"],
         ["r.io/falco/falco-rules", "0.1.0, latest"]] :=
  ⟨(((names_resolve_to_registry_locations (sampleOci 100) sampleInfo ()).1
      "cloudtrail" cloudtrail _ rfl rfl).1).trans (by decide),
    ((names_resolve_to_registry_locations (sampleOci 100) sampleInfo ()).2.1
      (LoopState.init 0)
      ["cloudtrail-ext", "cloudtrail", "nope", "r.io/falco/cloudtrail:0.1.0", "falco-rules"]).trans
      (by decide)⟩

end Info

end Falcoctl
